import Mathlib

/-!
Verification of the interactive annotation engine in
`src/depo2/src/pages/Home.tsx` (blueprint viewer with segments and
polylines).  JavaScript numbers are modelled as exact rationals plus the
special values `NaN`, `Infinity` and `-Infinity`; untrusted JSON values
(the output of `JSON.parse`) are modelled by the inductive type `JValue`.
Every definition below is a direct transcription of the corresponding
function in `Home.tsx`, with the source line numbers given in comments.
-/

namespace Lokoteh

/-- A JavaScript number: either a finite value (modelled exactly as a
rational) or one of the special values `NaN`, `Infinity`, `-Infinity`. -/
inductive JNum where
  | nan
  | inf
  | ninf
  | fin (q : ℚ)
deriving DecidableEq

/-- The finite-number branch of `clampPercent` (Home.tsx lines 328-333 and
579-584): values below `0` go to `0`, above `100` go to `100`. -/
def clampQ (v : ℚ) : ℚ :=
  if v < 0 then 0
  else if v > 100 then 100
  else v

/-- `clampPercent` (Home.tsx lines 328-333, identical copy at 579-584):
`Number.isNaN(v)` yields `0`; then `v < 0` yields `0`, `v > 100` yields
`100`, otherwise `v` itself.  `Infinity` satisfies `v > 100` and
`-Infinity` satisfies `v < 0`, so they clamp to `100` and `0`. -/
def clampPercent (v : JNum) : ℚ :=
  match v with
  | .nan => 0
  | .inf => 100
  | .ninf => 0
  | .fin q => clampQ q

/-- A JSON value as produced by `JSON.parse` (plus the non-finite numbers,
which `JSON.parse` itself never produces but the validators still guard
against). -/
inductive JValue where
  | jnull
  | jbool (b : Bool)
  | jnum (n : JNum)
  | jstr (s : String)
  | jarr (elems : List JValue)
  | jobj (fields : List (String × JValue))

/-- Property lookup on a list of object fields (keys produced by
`JSON.parse` are unique, the first match is taken). -/
def lookupField : List (String × JValue) → String → Option JValue
  | [], _ => none
  | (k, v) :: rest, key => if k = key then some v else lookupField rest key

/-- JavaScript property access `v[key]`: `undefined` (here `none`) unless
`v` is an object with that key.  Array property access with a non-index
key also yields `undefined`. -/
def getField (v : JValue) (key : String) : Option JValue :=
  match v with
  | .jobj fields => lookupField fields key
  | _ => none

/-- The truthy `item && typeof item === 'object'` test of
`normalizeImportedSegments` (Home.tsx line 603): `typeof` is `'object'`
for objects, arrays and `null`, and `null` is falsy, so exactly objects
and arrays pass. -/
def isObjectLike (v : JValue) : Bool :=
  match v with
  | .jobj _ => true
  | .jarr _ => true
  | _ => false

/-- Segment color keyword (Home.tsx line 30). -/
inductive SegColor where
  | cyan
  | emerald
  | amber
deriving DecidableEq

/-- A highlightable segment on the blueprint (Home.tsx lines 12-31).
Geometry fields are percentages of the diagram's intrinsic size. -/
structure Segment where
  id : String
  code : String
  title : String
  details : String
  top : ℚ
  left : ℚ
  width : ℚ
  height : ℚ
  color : SegColor
deriving DecidableEq

/-- A partial segment patch, as passed to `onUpdateSegment(id, patch)`
(`Partial<Segment>` in the source; the `id` field is never patched). -/
structure SegPatch where
  code : Option String := none
  title : Option String := none
  details : Option String := none
  top : Option ℚ := none
  left : Option ℚ := none
  width : Option ℚ := none
  height : Option ℚ := none
  color : Option SegColor := none

/-- The spread-merge `{ ...segment, ...patch }` of `handleUpdateSegment`
(Home.tsx line 1399): present patch fields override, absent ones keep the
segment's value. -/
def applyPatch (s : Segment) (p : SegPatch) : Segment :=
  { id := s.id
    code := p.code.getD s.code
    title := p.title.getD s.title
    details := p.details.getD s.details
    top := p.top.getD s.top
    left := p.left.getD s.left
    width := p.width.getD s.width
    height := p.height.getD s.height
    color := p.color.getD s.color }

/-- `handleUpdateSegment` (Home.tsx lines 1398-1400): maps over the
collection and spread-merges the patch into the segment with the given
id. -/
def handleUpdateSegment (segs : List Segment) (targetId : String) (p : SegPatch) :
    List Segment :=
  segs.map (fun s => if s.id = targetId then applyPatch s p else s)

/-- The four geometry fields of a segment. -/
inductive GeomField where
  | top
  | left
  | width
  | height
deriving DecidableEq

/-- Reads one geometry field. -/
def geomGet (s : Segment) : GeomField → ℚ
  | .top => s.top
  | .left => s.left
  | .width => s.width
  | .height => s.height

/-- One `update(id, patch)` call as issued by the program.  Geometry
values arrive as raw JavaScript numbers (possibly `NaN`, from
`Number(e.target.value)` on the sidebar inputs, Home.tsx lines 769-781,
or from the drag-move computation, lines 398-401); every geometry call
site wraps the value in `clampPercent` before building the patch. -/
inductive UpdateEvent where
  | setCode (s : String)
  | setTitle (s : String)
  | setDetails (s : String)
  | setColor (c : SegColor)
  | setGeom (f : GeomField) (v : JNum)
  | setPos (rawTop rawLeft : JNum)

/-- The patch built by each call site (sidebar inputs clamp with
`clampPercent`, Home.tsx lines 769-781; the drag move handler clamps
both coordinates, lines 400-402). -/
def eventPatch : UpdateEvent → SegPatch
  | .setCode s => { code := some s }
  | .setTitle s => { title := some s }
  | .setDetails s => { details := some s }
  | .setColor c => { color := some c }
  | .setGeom .top v => { top := some (clampPercent v) }
  | .setGeom .left v => { left := some (clampPercent v) }
  | .setGeom .width v => { width := some (clampPercent v) }
  | .setGeom .height v => { height := some (clampPercent v) }
  | .setPos rawTop rawLeft =>
      { top := some (clampPercent rawTop), left := some (clampPercent rawLeft) }

/-- One update call applied to the store. -/
def applyUpdate (segs : List Segment) (ev : String × UpdateEvent) : List Segment :=
  handleUpdateSegment segs ev.1 (eventPatch ev.2)

/-- A rational percentage in bounds. -/
def inRange (q : ℚ) : Prop := 0 ≤ q ∧ q ≤ 100

instance (q : ℚ) : Decidable (inRange q) := by
  unfold inRange; infer_instance

/-- All four geometry fields of every segment in the collection are in
`[0, 100]`. -/
def GeomInRange (segs : List Segment) : Prop :=
  ∀ s ∈ segs, inRange s.top ∧ inRange s.left ∧ inRange s.width ∧ inRange s.height

instance (segs : List Segment) : Decidable (GeomInRange segs) := by
  unfold GeomInRange; infer_instance

theorem clampQ_inRange (q : ℚ) : inRange (clampQ q) := by
  unfold clampQ inRange
  split
  · exact ⟨le_refl 0, by norm_num⟩
  · split
    · exact ⟨by norm_num, le_refl 100⟩
    · exact ⟨le_of_not_lt (by assumption), le_of_not_lt (by assumption)⟩

theorem clampPercent_inRange (v : JNum) : inRange (clampPercent v) := by
  cases v with
  | nan => exact ⟨le_refl 0, by norm_num [clampPercent, inRange]⟩
  | inf => exact ⟨by norm_num [clampPercent, inRange], le_refl 100⟩
  | ninf => exact ⟨le_refl 0, by norm_num [clampPercent, inRange]⟩
  | fin q => exact clampQ_inRange q

theorem clampPercent_nan : clampPercent .nan = 0 := rfl

theorem applyUpdate_preserves (segs : List Segment) (ev : String × UpdateEvent)
    (h : GeomInRange segs) : GeomInRange (applyUpdate segs ev) := by
  obtain ⟨tid, ev'⟩ := ev
  intro s hs
  unfold applyUpdate handleUpdateSegment at hs
  rw [List.mem_map] at hs
  obtain ⟨s₀, hs₀, rfl⟩ := hs
  have h₀ := h s₀ hs₀
  by_cases hid : s₀.id = tid
  · simp only [hid, if_true]
    cases ev' with
    | setCode t => simpa [applyPatch, eventPatch] using h₀
    | setTitle t => simpa [applyPatch, eventPatch] using h₀
    | setDetails t => simpa [applyPatch, eventPatch] using h₀
    | setColor t => simpa [applyPatch, eventPatch] using h₀
    | setGeom f v =>
        have hv := clampPercent_inRange v
        obtain ⟨h1, h2, h3, h4⟩ := h₀
        cases f <;> simp [applyPatch, eventPatch] <;> tauto
    | setPos rt rl =>
        have ht := clampPercent_inRange rt
        have hl := clampPercent_inRange rl
        obtain ⟨h1, h2, h3, h4⟩ := h₀
        simp [applyPatch, eventPatch]
        tauto
  · simpa [hid] using h₀

theorem foldl_applyUpdate_preserves (evs : List (String × UpdateEvent))
    (segs : List Segment) (h : GeomInRange segs) :
    GeomInRange (evs.foldl applyUpdate segs) := by
  induction evs generalizing segs with
  | nil => exact h
  | cons ev rest ih => exact ih _ (applyUpdate_preserves segs ev h)

/-- C1: for every sequence of `update(id, patch)` calls issued by the
program on a collection whose geometry starts in `[0, 100]`, the stored
`top`/`left`/`width`/`height` values stay in `[0, 100]`; moreover a
geometry update carrying `NaN` stores `0` in the targeted field of the
matching segment. -/
theorem c1_update_clamps (segs : List Segment) (h : GeomInRange segs)
    (evs : List (String × UpdateEvent)) :
    GeomInRange (evs.foldl applyUpdate segs) ∧
    (∀ targetId f v s, s ∈ applyUpdate segs (targetId, .setGeom f v) →
        s.id = targetId → inRange (geomGet s f)) ∧
    (∀ targetId f s, s ∈ applyUpdate segs (targetId, .setGeom f .nan) →
        s.id = targetId → geomGet s f = 0) := by
  refine ⟨foldl_applyUpdate_preserves evs segs h, ?_, ?_⟩
  · intro targetId f v s hs hid
    unfold applyUpdate handleUpdateSegment at hs
    rw [List.mem_map] at hs
    obtain ⟨s₀, hs₀, rfl⟩ := hs
    by_cases h₀ : s₀.id = targetId
    · simp only [h₀, if_true]
      cases f <;> simpa [applyPatch, eventPatch, geomGet] using clampPercent_inRange v
    · rw [if_neg h₀] at hid
      exact absurd hid h₀
  · intro targetId f s hs hid
    unfold applyUpdate handleUpdateSegment at hs
    rw [List.mem_map] at hs
    obtain ⟨s₀, hs₀, rfl⟩ := hs
    by_cases h₀ : s₀.id = targetId
    · simp only [h₀, if_true]
      cases f <;> simp [applyPatch, eventPatch, geomGet, clampPercent]
    · rw [if_neg h₀] at hid
      exact absurd hid h₀

/-- Witness for C1 at a concrete collection and event sequence. -/
theorem c1_update_clamps_witness :
    GeomInRange [⟨"a", "SEG", "", "", 10, 20, 30, 40, .cyan⟩] ∧
    GeomInRange
      ([("a", .setGeom .top (.fin 250)), ("a", .setGeom .left .nan),
        ("a", .setPos (.fin (-7)) (.fin 3))].foldl applyUpdate
        [⟨"a", "SEG", "", "", 10, 20, 30, 40, .cyan⟩]) :=
  ⟨by decide,
    (c1_update_clamps [⟨"a", "SEG", "", "", 10, 20, 30, 40, .cyan⟩] (by decide)
      [("a", .setGeom .top (.fin 250)), ("a", .setGeom .left .nan),
        ("a", .setPos (.fin (-7)) (.fin 3))]).1⟩

/-! ## Import validator (`normalizeImportedSegments`, Home.tsx lines 590-620) -/

/-- `toSegmentColor` (Home.tsx lines 593-596): a string out of the allowed
set is kept, everything else falls back to `'cyan'`. -/
def toSegmentColor (v : Option JValue) : SegColor :=
  match v with
  | some (.jstr "cyan") => .cyan
  | some (.jstr "emerald") => .emerald
  | some (.jstr "amber") => .amber
  | _ => .cyan

/-- `safeNumber` (Home.tsx lines 597-600): a finite number is clamped with
`clampPercent`, everything else (including `NaN` and the infinities, which
fail `Number.isFinite`) is replaced by the fallback. -/
def safeNumber (v : Option JValue) (fallback : ℚ) : ℚ :=
  match v with
  | some (.jnum (.fin q)) => clampQ q
  | _ => fallback

/-- The JavaScript check `s.trim().length === 0`: true exactly when every
character of `s` is whitespace (`String.trim` in Lean is not
kernel-reducible, so the emptiness-after-trim test is transcribed
directly). -/
def isBlank (s : String) : Bool := s.toList.all (fun c => c.isWhitespace)

/-- The body of the `for (const item of raw)` loop of
`normalizeImportedSegments` (Home.tsx lines 602-617): `null` for a
non-object element or an element whose `id` is not a non-blank string;
otherwise a `Segment` with every other field individually defaulted or
coerced. -/
def normalizeItem (item : JValue) : Option Segment :=
  if isObjectLike item = false then none
  else
    match getField item "id" with
    | some (.jstr idStr) =>
      if isBlank idStr then none
      else
        some
          { id := idStr
            code := match getField item "code" with
                    | some (.jstr s) => s
                    | _ => "SEG"
            title := match getField item "title" with
                     | some (.jstr s) => s
                     | _ => ""
            details := match getField item "details" with
                       | some (.jstr s) => s
                       | _ => ""
            top := safeNumber (getField item "top") 0
            left := safeNumber (getField item "left") 0
            width := safeNumber (getField item "width") 10
            height := safeNumber (getField item "height") 8
            color := toSegmentColor (getField item "color") }
    | _ => none

/-- The element loop of `normalizeImportedSegments` (Home.tsx lines
601-619): `null` from any element aborts the whole validation, otherwise
the results are collected in order. -/
def normalizeLoop : List JValue → Option (List Segment)
  | [] => some []
  | item :: rest =>
    match normalizeItem item with
    | none => none
    | some segment => (normalizeLoop rest).map (fun tail => segment :: tail)

/-- `normalizeImportedSegments` (Home.tsx lines 590-620): `null` unless
the input is an array, then the element loop. -/
def normalizeImportedSegments (raw : JValue) : Option (List Segment) :=
  match raw with
  | .jarr items => normalizeLoop items
  | _ => none

/-- The minimal per-element requirement of the validator: a (non-null)
object or array with a non-blank string `id`. -/
def minimalItemOk (item : JValue) : Bool :=
  isObjectLike item &&
    (match getField item "id" with
     | some (.jstr s) => !(isBlank s)
     | _ => false)

theorem normalizeItem_of_bad (item : JValue) (hbad : minimalItemOk item = false) :
    normalizeItem item = none := by
  unfold normalizeItem
  split
  · rfl
  · split
    · split
      · rfl
      · exfalso
        rcases Bool.and_eq_false_iff.mp (by unfold minimalItemOk at hbad; exact hbad)
          with h1 | h1
        · exact (by assumption : ¬ isObjectLike item = false) h1
        · rename_i hok hid hnb
          rw [hid] at h1
          simp only [Bool.not_eq_false'] at h1
          exact hnb h1
    · rfl

theorem normalizeLoop_of_bad (xs : List JValue) (item : JValue)
    (hmem : item ∈ xs) (hbad : minimalItemOk item = false) :
    normalizeLoop xs = none := by
  induction xs with
  | nil => cases hmem
  | cons hd tl ih =>
    rcases List.mem_cons.mp hmem with h | h
    · subst h
      unfold normalizeLoop
      rw [normalizeItem_of_bad _ hbad]
    · unfold normalizeLoop
      split
      · rfl
      · rw [ih h]
        rfl

theorem normalizeLoop_length (xs : List JValue) (res : List Segment)
    (h : normalizeLoop xs = some res) : res.length = xs.length := by
  induction xs generalizing res with
  | nil =>
    unfold normalizeLoop at h
    cases h
    rfl
  | cons hd tl ih =>
    unfold normalizeLoop at h
    split at h
    · cases h
    · cases hrec : normalizeLoop tl with
      | none => rw [hrec] at h; cases h
      | some tailRes =>
        rw [hrec] at h
        cases h
        simp [ih tailRes hrec]

/-- C3: the import validator rejects wholesale: `null` when the input is
not an array, `null` when any single element fails the minimal
non-blank-string-`id` requirement (regardless of the other elements), and
a successful validation always covers every element of the input (never a
partial list). -/
theorem c3_all_or_nothing :
    (∀ raw : JValue, (∀ xs, raw ≠ .jarr xs) → normalizeImportedSegments raw = none) ∧
    (∀ xs item, item ∈ xs → minimalItemOk item = false →
        normalizeImportedSegments (.jarr xs) = none) ∧
    (∀ xs res, normalizeImportedSegments (.jarr xs) = some res →
        res.length = xs.length) := by
  refine ⟨?_, ?_, ?_⟩
  · intro raw h
    cases raw with
    | jarr xs => exact absurd rfl (h xs)
    | jnull => rfl
    | jbool b => rfl
    | jnum n => rfl
    | jstr s => rfl
    | jobj fs => rfl
  · intro xs item hmem hbad
    exact normalizeLoop_of_bad xs item hmem hbad
  · intro xs res h
    exact normalizeLoop_length xs res h

/-- Witness for C3 at concrete inputs: a string input is rejected, an
array whose second element is `null` is rejected even though the first
element is a well-formed segment object, and a good singleton validates
to a list of the same length. -/
theorem c3_all_or_nothing_witness :
    normalizeImportedSegments (.jstr "not an array") = none ∧
    normalizeImportedSegments
      (.jarr [.jobj [("id", .jstr "ok")], .jnull]) = none ∧
    (normalizeImportedSegments (.jarr [.jobj [("id", .jstr "ok")]])).all
      (fun res => res.length = 1) := by
  refine ⟨?_, ?_, ?_⟩
  · exact c3_all_or_nothing.1 (.jstr "not an array") (fun xs h => by cases h)
  · exact c3_all_or_nothing.2.1 [.jobj [("id", .jstr "ok")], .jnull] .jnull
      (by simp) (by decide)
  · decide

/-! ## Serialization round trip (C8) -/

/-- The string stored for a segment color by `JSON.stringify`. -/
def colorToString : SegColor → String
  | .cyan => "cyan"
  | .emerald => "emerald"
  | .amber => "amber"

/-- `JSON.parse(JSON.stringify(segment))` for an in-memory `Segment`: a
plain object holding exactly the nine fields with their values (the
stringify/parse pair is the identity on JSON-representable data, and all
segment fields are strings or finite numbers). -/
def encodeSegment (s : Segment) : JValue :=
  .jobj
    [("id", .jstr s.id), ("code", .jstr s.code), ("title", .jstr s.title),
     ("details", .jstr s.details), ("top", .jnum (.fin s.top)),
     ("left", .jnum (.fin s.left)), ("width", .jnum (.fin s.width)),
     ("height", .jnum (.fin s.height)), ("color", .jstr (colorToString s.color))]

/-- A segment whose numeric fields satisfy the domain constraints of
spec section 3: all four geometry fields in `[0, 100]` (the string fields
and the color are constrained only by their types). -/
def wellFormedSegment (s : Segment) : Prop :=
  inRange s.top ∧ inRange s.left ∧ inRange s.width ∧ inRange s.height

instance (s : Segment) : Decidable (wellFormedSegment s) := by
  unfold wellFormedSegment; infer_instance

/-- A well-formed segment collection per spec section 3: every element
well formed and ids pairwise distinct. -/
def wellFormedSegments (l : List Segment) : Prop :=
  (∀ s ∈ l, wellFormedSegment s) ∧ l.Pairwise (fun a b => a.id ≠ b.id)

instance (l : List Segment) : Decidable (wellFormedSegments l) := by
  unfold wellFormedSegments; infer_instance

theorem clampQ_eq_self (q : ℚ) (h : inRange q) : clampQ q = q := by
  unfold clampQ
  rw [if_neg (not_lt.mpr h.1), if_neg (not_lt.mpr h.2)]

theorem toSegmentColor_encode (c : SegColor) :
    toSegmentColor (some (.jstr (colorToString c))) = c := by
  cases c <;> rfl

theorem normalizeItem_encode (s : Segment) (h : wellFormedSegment s)
    (hid : isBlank s.id = false) : normalizeItem (encodeSegment s) = some s := by
  obtain ⟨id, code, title, details, top, left, width, height, color⟩ := s
  obtain ⟨h1, h2, h3, h4⟩ := h
  have hred : normalizeItem (encodeSegment ⟨id, code, title, details, top, left,
      width, height, color⟩) =
      if isBlank id then none
      else
        some ⟨id, code, title, details, clampQ top, clampQ left, clampQ width,
          clampQ height, toSegmentColor (some (.jstr (colorToString color)))⟩ := rfl
  rw [hred, if_neg (by simp [hid])]
  rw [clampQ_eq_self _ h1, clampQ_eq_self _ h2, clampQ_eq_self _ h3,
    clampQ_eq_self _ h4, toSegmentColor_encode]

theorem normalizeLoop_encode (l : List Segment)
    (h : ∀ s ∈ l, wellFormedSegment s ∧ isBlank s.id = false) :
    normalizeLoop (l.map encodeSegment) = some l := by
  induction l with
  | nil => rfl
  | cons hd tl ih =>
    have hhd := h hd (List.mem_cons_self hd tl)
    unfold normalizeLoop
    simp only [List.map_cons]
    rw [normalizeItem_encode hd hhd.1 hhd.2,
      ih (fun s hs => h s (List.mem_cons_of_mem hd hs))]
    rfl

/-- C8 counterexample: a collection meeting the section-3 domain
constraints as written (the `id` is a string, unique; all geometry in
range) on which the round trip fails, because the validator additionally
rejects a whitespace-only `id`. -/
theorem c8_roundtrip_counterexample :
    wellFormedSegments [⟨" ", "SEG", "", "", 0, 0, 10, 8, .cyan⟩] ∧
    normalizeImportedSegments
      (.jarr ([(⟨" ", "SEG", "", "", 0, 0, 10, 8, .cyan⟩ : Segment)].map
        encodeSegment)) ≠
      some [⟨" ", "SEG", "", "", 0, 0, 10, 8, .cyan⟩] := by
  constructor
  · decide
  · decide

/-- C8 (amended): for a well-formed segment collection all of whose ids
are non-blank, validating the JSON-stringify-then-parse image returns the
collection itself. -/
theorem c8_roundtrip (l : List Segment) (h : wellFormedSegments l)
    (hids : ∀ s ∈ l, isBlank s.id = false) :
    normalizeImportedSegments (.jarr (l.map encodeSegment)) = some l :=
  normalizeLoop_encode l (fun s hs => ⟨h.1 s hs, hids s hs⟩)

/-- Witness for C8 at a concrete two-element collection. -/
theorem c8_roundtrip_witness :
    wellFormedSegments
      [⟨"a", "TP-2", "t", "d", 10, 20, 30, 40, .emerald⟩,
       ⟨"b", "SEG", "", "", 0, 100, 55, 8, .amber⟩] ∧
    normalizeImportedSegments
      (.jarr
        ([⟨"a", "TP-2", "t", "d", 10, 20, 30, 40, .emerald⟩,
          ⟨"b", "SEG", "", "", 0, 100, 55, 8, .amber⟩].map encodeSegment)) =
      some
        [⟨"a", "TP-2", "t", "d", 10, 20, 30, 40, .emerald⟩,
         ⟨"b", "SEG", "", "", 0, 100, 55, 8, .amber⟩] :=
  ⟨by decide,
    c8_roundtrip
      [⟨"a", "TP-2", "t", "d", 10, 20, 30, 40, .emerald⟩,
       ⟨"b", "SEG", "", "", 0, 100, 55, 8, .amber⟩]
      (by decide) (by decide)⟩

/-! ## Applying an import (`handleApplyImport`, Home.tsx lines 622-641) -/

/-- The sidebar state touched by the import panel. -/
structure SidebarState where
  segments : List Segment
  importError : Option String
  importSuccess : Bool

/-- The pasted import text, after the two steps the handler performs on
it: the blank check (`!importText.trim()`) and `JSON.parse` (which either
throws or yields a JSON value). -/
inductive ImportText where
  | blank
  | invalidJson
  | json (v : JValue)

/-- `handleApplyImport` (Home.tsx lines 622-641).  It first clears the
error and success flags; a blank text or a parse failure sets an error; a
validator result that is `null` **or an empty list** sets an error and
leaves the collection untouched; otherwise `onImportSegments` replaces
the whole collection and the success flag is set. -/
def handleApplyImport (st : SidebarState) (input : ImportText) : SidebarState :=
  match input with
  | .blank =>
      { segments := st.segments,
        importError := some "Вставьте JSON перед импортом.", importSuccess := false }
  | .invalidJson =>
      { segments := st.segments,
        importError := some "Не удалось разобрать JSON. Проверьте формат.",
        importSuccess := false }
  | .json v =>
    match normalizeImportedSegments v with
    | none =>
        { segments := st.segments,
          importError := some "Некорректный формат данных или пустой список сегментов.",
          importSuccess := false }
    | some [] =>
        { segments := st.segments,
          importError := some "Некорректный формат данных или пустой список сегментов.",
          importSuccess := false }
    | some (seg :: rest) =>
        { segments := seg :: rest, importError := none, importSuccess := true }

/-- C10: importing the valid-but-empty JSON array `[]` is rejected with a
user-visible error message and leaves the segment collection unchanged,
and any import that succeeds (sets the success flag) installs a non-empty
collection. -/
theorem c10_empty_import_rejected :
    (∀ st : SidebarState,
      (handleApplyImport st (.json (.jarr []))).segments = st.segments ∧
      (handleApplyImport st (.json (.jarr []))).importError =
        some "Некорректный формат данных или пустой список сегментов." ∧
      (handleApplyImport st (.json (.jarr []))).importSuccess = false) ∧
    (∀ (st : SidebarState) (input : ImportText),
      (handleApplyImport st input).importSuccess = true →
      (handleApplyImport st input).segments ≠ []) := by
  constructor
  · intro st
    exact ⟨rfl, rfl, rfl⟩
  · intro st input h
    cases input with
    | blank => simp [handleApplyImport] at h
    | invalidJson => simp [handleApplyImport] at h
    | json v =>
      simp only [handleApplyImport] at h ⊢
      cases hn : normalizeImportedSegments v with
      | none =>
        rw [hn] at h
        simp at h
      | some l =>
        rw [hn] at h
        cases l with
        | nil => simp at h
        | cons seg rest => simp

/-- Witness for C10: a concrete import of a one-element array succeeds
and installs a non-empty collection. -/
theorem c10_empty_import_rejected_witness :
    (handleApplyImport ⟨[], none, false⟩
        (.json (.jarr [.jobj [("id", .jstr "ok")]]))).importSuccess = true ∧
    (handleApplyImport ⟨[], none, false⟩
        (.json (.jarr [.jobj [("id", .jstr "ok")]]))).segments ≠ [] :=
  ⟨by decide,
    c10_empty_import_rejected.2 ⟨[], none, false⟩
      (.json (.jarr [.jobj [("id", .jstr "ok")]])) (by decide)⟩

/-! ## Coordinate mapping and the drag session (C2) -/

/-- The on-screen bounding rectangle of the blueprint image, in client
pixels (`img.getBoundingClientRect()`, Home.tsx line 397).  The SVG
overlay is absolutely positioned over the image with
`viewBox="0 0 100 100"` and `preserveAspectRatio="none"`, so its screen
CTM maps the same rectangle. -/
structure Rect where
  left : ℚ
  top : ℚ
  width : ℚ
  height : ℚ

/-- Point of a polyline / normalized canvas point in percent coordinates
(Home.tsx lines 36-41). -/
structure PolylinePoint where
  x : ℚ
  y : ℚ
deriving DecidableEq

/-- `clientToSvgPercent` (Home.tsx lines 335-345) on a measured surface:
inverting the screen CTM of the `0..100` viewBox stretched over `r`
yields `(client - r.origin) / r.extent * 100`, then both axes are clamped
with `clampPercent`.  (When the surface is unmeasured the source returns
`null` and the caller ignores the event; that case is handled at the
event level, not here.) -/
def clientToSvgPercent (r : Rect) (clientX clientY : ℚ) : PolylinePoint :=
  { x := clampQ ((clientX - r.left) / r.width * 100)
    y := clampQ ((clientY - r.top) / r.height * 100) }

/-- The drag state captured by `handleMouseDown` (Home.tsx lines 347-355):
the grab offset is the normalized pointer coordinate minus the segment's
current `left`/`top`, in percent units. -/
structure DragState where
  id : String
  offsetX : ℚ
  offsetY : ℚ

/-- `handleMouseDown` (Home.tsx lines 347-355). -/
def handleMouseDown (r : Rect) (seg : Segment) (clientX clientY : ℚ) : DragState :=
  let point := clientToSvgPercent r clientX clientY
  { id := seg.id, offsetX := point.x - seg.left, offsetY := point.y - seg.top }

/-- The `(top, left)` patch computed by the drag-move handler (Home.tsx
lines 394-402): the **percent-unit** offsets are subtracted from the
**pixel** distances `clientX - rect.left` / `clientY - rect.top` before
dividing by the rect extent. -/
def dragMovePatch (r : Rect) (d : DragState) (clientX clientY : ℚ) : ℚ × ℚ :=
  let rawLeftPercent := (clientX - r.left - d.offsetX) / r.width * 100
  let rawTopPercent := (clientY - r.top - d.offsetY) / r.height * 100
  (clampQ rawTopPercent, clampQ rawLeftPercent)

/-- A whole drag session: offsets captured once at grab, then every move
event patches the segment's `top`/`left` through the store. -/
def dragSessionFinal (r : Rect) (seg : Segment) (grab : ℚ × ℚ)
    (moves : List (ℚ × ℚ)) : Segment :=
  let d := handleMouseDown r seg grab.1 grab.2
  moves.foldl
    (fun s m =>
      let p := dragMovePatch r d m.1 m.2
      { s with top := p.1, left := p.2 })
    seg

/-- The `(top, left)` value claimed by the specification for the end of a
drag session (spec sections 4.3 and 8, stated here from the spec's words
for comparison with the code): the clamp of the final pointer's
normalized coordinate minus the grab offset, where the grab offset is the
normalized pointer coordinate at grab minus the segment's
`{left, top}` at grab. -/
def specDragFinal (r : Rect) (seg : Segment) (grab finalPointer : ℚ × ℚ) :
    ℚ × ℚ :=
  let grabNorm := clientToSvgPercent r grab.1 grab.2
  let finalNorm := clientToSvgPercent r finalPointer.1 finalPointer.2
  (clampQ (finalNorm.y - (grabNorm.y - seg.top)),
    clampQ (finalNorm.x - (grabNorm.x - seg.left)))

/-- C2 (code bug): on a 200x200-pixel surface, grabbing the segment whose
`left` is `40` at client point `(100, 100)` (normalized `50`, grab offset
`10` percent) and releasing after a single move event at the very same
pointer position leaves `left = 45`, not the spec's `40`: the percent
grab offset is subtracted in pixel units, so the box jumps even though
the pointer never moved. -/
theorem c2_drag_offset_bug :
    (dragSessionFinal ⟨0, 0, 200, 200⟩ ⟨"tp2", "TP-2", "", "", 40, 40, 10, 7, .cyan⟩
        (100, 100) [(100, 100)]).left = 45 ∧
    (specDragFinal ⟨0, 0, 200, 200⟩ ⟨"tp2", "TP-2", "", "", 40, 40, 10, 7, .cyan⟩
        (100, 100) (100, 100)).2 = 40 ∧
    (dragSessionFinal ⟨0, 0, 200, 200⟩ ⟨"tp2", "TP-2", "", "", 40, 40, 10, 7, .cyan⟩
        (100, 100) [(100, 100)]).left ≠
      (specDragFinal ⟨0, 0, 200, 200⟩ ⟨"tp2", "TP-2", "", "", 40, 40, 10, 7, .cyan⟩
        (100, 100) (100, 100)).2 := by
  refine ⟨?_, ?_, ?_⟩ <;>
    norm_num [dragSessionFinal, dragMovePatch, handleMouseDown, clientToSvgPercent,
      specDragFinal, clampQ]

/-! ## Zoom (`handleWheel`, Home.tsx lines 357-366): C7 and C9 -/

/-- `Number(x.toFixed(2))`: rounding to two decimal places (ties round
half away from zero; every value produced by the wheel handler is a
multiple of `0.05`, so no tie ever occurs). -/
def round2 (q : ℚ) : ℚ := round (q * 100) / 100

/-- `handleWheel` (Home.tsx lines 357-366): step `0.1` opposite the sign
of `deltaY` (`deltaY > 0` scrolls down and zooms out), clamped to
`[0.5, 4]` and rounded to two decimals. -/
def handleWheel (zoom deltaY : ℚ) : ℚ :=
  let zoomStep : ℚ := 0.1
  let minZoom : ℚ := 0.5
  let maxZoom : ℚ := 4
  let direction : ℚ := if deltaY > 0 then -1 else 1
  round2 (min maxZoom (max minZoom (zoom + direction * zoomStep)))

/-- `n` successive wheel-up events (negative `deltaY`). -/
def wheelUps : ℕ → ℚ → ℚ
  | 0, z => z
  | n + 1, z => wheelUps n (handleWheel z (-1))

set_option maxRecDepth 40000 in
/-- C7: each wheel event with nonzero `deltaY` moves the scale by `0.1`
opposite the sign of `deltaY`, clamped into `[0.5, 4]` and rounded to two
decimals; four wheel-ups from `1.0` give `1.4`, and 30 further wheel-ups
clamp at `4.0`. -/
theorem c7_wheel_zoom :
    (∀ zoom deltaY : ℚ, deltaY ≠ 0 →
      handleWheel zoom deltaY =
        round2 (min 4 (max 0.5 (zoom - (if 0 < deltaY then 1 else -1) * 0.1)))) ∧
    wheelUps 4 1 = 1.4 ∧ wheelUps 30 (wheelUps 4 1) = 4 := by
  refine ⟨?_, ?_, ?_⟩
  · intro zoom deltaY _
    by_cases hd : deltaY > 0
    · simp only [handleWheel, hd, if_true, gt_iff_lt]
      ring_nf
    · simp only [handleWheel, hd, if_false, gt_iff_lt]
      norm_num
  · norm_num [wheelUps, handleWheel, round2, round_eq]
  · norm_num [wheelUps, handleWheel, round2, round_eq]

/-- Witness for C7 at `zoom = 1`, `deltaY = -53`. -/
theorem c7_wheel_zoom_witness :
    ((-53 : ℚ) ≠ 0) ∧
    handleWheel 1 (-53) =
      round2 (min 4 (max 0.5 (1 - (if (0:ℚ) < -53 then 1 else -1) * 0.1))) :=
  ⟨by norm_num, c7_wheel_zoom.1 1 (-53) (by norm_num)⟩

/-- Allowed dash style for polylines (Home.tsx line 51). -/
inductive PolylineDashStyle where
  | solid
  | dashed
  | dotted
deriving DecidableEq

/-- Allowed color for polylines (Home.tsx line 46) — the same enumerated
set as segment colors. -/
abbrev PolylineColor := SegColor

/-- Polyline drawn over the blueprint (Home.tsx lines 56-71). -/
structure Polyline where
  id : String
  label : String
  description : String
  color : PolylineColor
  strokeWidth : ℚ
  dashStyle : PolylineDashStyle
  points : List PolylinePoint
deriving DecidableEq

/-- The `Home` component state touched by a wheel event: the annotation
collections (segments, home polylines and the wheel-modal polylines) and
the zoom scale.  `handleWheel` invokes only `onZoomChange` (which is
`setZoom`, Home.tsx line 1541), so a wheel event rewrites only `zoom`. -/
structure AppState where
  segments : List Segment
  homePolylines : List Polyline
  wheelPolylines : List Polyline
  zoom : ℚ

/-- One wheel event applied to the application state. -/
def applyWheelEvent (st : AppState) (deltaY : ℚ) : AppState :=
  { st with zoom := handleWheel st.zoom deltaY }

/-- C9: no sequence of wheel events ever modifies any stored annotation:
segments (all fields, geometry included) and both polyline collections
are exactly the same before and after; only the scale changes. -/
theorem c9_zoom_frame (st : AppState) (ds : List ℚ) :
    (ds.foldl applyWheelEvent st).segments = st.segments ∧
    (ds.foldl applyWheelEvent st).homePolylines = st.homePolylines ∧
    (ds.foldl applyWheelEvent st).wheelPolylines = st.wheelPolylines := by
  induction ds generalizing st with
  | nil => exact ⟨rfl, rfl, rfl⟩
  | cons d rest ih =>
    simpa [List.foldl_cons, applyWheelEvent] using ih { st with zoom := handleWheel st.zoom d }

/-! ## Polyline drawing session (C5) and deletion (C6) -/

/-- The combined state driving polyline authoring: the `Home` state
(`polylines`, `activePolylineId`, `isDrawingPolyline`, Home.tsx lines
1345, 1375-1376) plus the canvas component's `previewPoint` (line 326)
and the edit-mode flag (line 1372). -/
structure DrawState where
  polylines : List Polyline
  activePolylineId : Option String
  isDrawingPolyline : Bool
  previewPoint : Option PolylinePoint
  isEditMode : Bool

/-- The fresh polyline built by `handleStartPolyline` (Home.tsx line
1428): empty `points`, label numbered from the current count. -/
def newHomePolyline (newId : String) (count : Nat) : Polyline :=
  { id := newId, label := "Линия " ++ toString (count + 1), description := ""
    color := .cyan, strokeWidth := 0.7, dashStyle := .solid, points := [] }

/-- `handleStartPolyline` (Home.tsx lines 1426-1432): appends the fresh
polyline, makes it active and enters drawing mode.  The generated
`poly-` id is a parameter here. -/
def handleStartPolyline (st : DrawState) (newId : String) : DrawState :=
  { st with
    polylines := st.polylines ++ [newHomePolyline newId st.polylines.length]
    activePolylineId := some newId
    isDrawingPolyline := true }

/-- `handleAddPolylinePointFromCanvas` (Home.tsx lines 1434-1437): while
drawing with an active polyline, append the point to that polyline. -/
def handleAddPolylinePointFromCanvas (st : DrawState) (point : PolylinePoint) :
    DrawState :=
  if st.isDrawingPolyline then
    match st.activePolylineId with
    | none => st
    | some aid =>
      { st with
        polylines :=
          st.polylines.map (fun poly =>
            if poly.id = aid then { poly with points := poly.points ++ [point] }
            else poly) }
  else st

/-- `handleCanvasClick` (Home.tsx lines 368-377): ignored unless in edit
mode and drawing; commits the preview point when one is tracked,
otherwise converts the click position (`none` models an unmeasured
surface, for which the event is ignored). -/
def handleCanvasClick (st : DrawState) (mapped : Option PolylinePoint) : DrawState :=
  if st.isEditMode && st.isDrawingPolyline then
    match st.previewPoint with
    | some p => handleAddPolylinePointFromCanvas st p
    | none =>
      match mapped with
      | none => st
      | some p => handleAddPolylinePointFromCanvas st p
  else st

/-- `handleMouseMoveOnCanvas` (Home.tsx lines 379-390): tracks the
pointer as the preview point while drawing in edit mode, otherwise clears
it. -/
def handleMouseMoveOnCanvas (st : DrawState) (mapped : Option PolylinePoint) :
    DrawState :=
  if st.isEditMode && st.isDrawingPolyline then
    match mapped with
    | none => { st with previewPoint := none }
    | some p => { st with previewPoint := some p }
  else { st with previewPoint := none }

/-- `handleFinishPolyline` (Home.tsx lines 1443-1445): only leaves
drawing mode; committed points are untouched. -/
def handleFinishPolyline (st : DrawState) : DrawState :=
  { st with isDrawingPolyline := false }

/-- One input event of a polyline drawing session. -/
inductive DrawEvent where
  | start (newId : String)
  | click (mapped : Option PolylinePoint)
  | move (mapped : Option PolylinePoint)
  | finish

/-- Event dispatch for the drawing session. -/
def drawStep (st : DrawState) (e : DrawEvent) : DrawState :=
  match e with
  | .start newId => handleStartPolyline st newId
  | .click m => handleCanvasClick st m
  | .move m => handleMouseMoveOnCanvas st m
  | .finish => handleFinishPolyline st

theorem map_addPoint_append (xs : List Polyline) (poly : Polyline) (aid : String)
    (pt : PolylinePoint) (hpoly : poly.id = aid) (h : ∀ p ∈ xs, p.id ≠ aid) :
    (xs ++ [poly]).map
        (fun q =>
          if q.id = aid then { q with points := q.points ++ [pt] } else q) =
      xs ++ [{ poly with points := poly.points ++ [pt] }] := by
  rw [List.map_append]
  congr 1
  · induction xs with
    | nil => rfl
    | cons hd tl ih =>
      simp only [List.map_cons]
      rw [if_neg (h hd (List.mem_cons_self hd tl)),
        ih (fun p hp => h p (List.mem_cons_of_mem hd hp))]
  · simp [hpoly]

/-- C5: the session `start, move to p1, click, move to p2, click, move to
p3, finish` (each point capture being a pointer move followed by a click,
as the canvas handlers implement it) adds exactly one new polyline whose
committed points are exactly `[p1, p2]`, and the tracked preview point
`p3` is not among them. -/
theorem c5_two_point_session (st : DrawState) (freshId : String)
    (p1 p2 p3 : PolylinePoint) (hEdit : st.isEditMode = true)
    (hFresh : ∀ poly ∈ st.polylines, poly.id ≠ freshId)
    (h31 : p3 ≠ p1) (h32 : p3 ≠ p2) :
    ([DrawEvent.start freshId, .move (some p1), .click none, .move (some p2),
        .click none, .move (some p3), .finish].foldl drawStep st).polylines =
      st.polylines ++
        [{ newHomePolyline freshId st.polylines.length with points := [p1, p2] }] ∧
    ([DrawEvent.start freshId, .move (some p1), .click none, .move (some p2),
        .click none, .move (some p3), .finish].foldl drawStep st).isDrawingPolyline =
      false ∧
    (∀ poly ∈ ([DrawEvent.start freshId, .move (some p1), .click none,
        .move (some p2), .click none, .move (some p3), .finish].foldl drawStep
          st).polylines,
      poly.id = freshId → poly.points = [p1, p2] ∧ p3 ∉ poly.points) := by
  have hpoly :
      ([DrawEvent.start freshId, .move (some p1), .click none, .move (some p2),
          .click none, .move (some p3), .finish].foldl drawStep st).polylines =
        st.polylines ++
          [{ newHomePolyline freshId st.polylines.length with points := [p1, p2] }] := by
    simp only [List.foldl_cons, List.foldl_nil, drawStep, handleStartPolyline,
      handleMouseMoveOnCanvas, handleCanvasClick, handleAddPolylinePointFromCanvas,
      handleFinishPolyline, hEdit, Bool.true_and, if_true]
    rw [map_addPoint_append st.polylines _ freshId p1 rfl hFresh]
    rw [map_addPoint_append st.polylines _ freshId p2 rfl hFresh]
    simp [newHomePolyline]
  refine ⟨hpoly, rfl, ?_⟩
  intro poly hmem hpid
  rw [hpoly] at hmem
  rcases List.mem_append.mp hmem with hold | hnew
  · exact absurd hpid (hFresh poly hold)
  · have : poly =
        { newHomePolyline freshId st.polylines.length with points := [p1, p2] } := by
      simpa using hnew
    subst this
    refine ⟨rfl, ?_⟩
    intro hp3
    rcases List.mem_cons.mp hp3 with h | h
    · exact h31 h
    · rcases List.mem_cons.mp h with h' | h'
      · exact h32 h'
      · cases h'

/-- Witness for C5 on an empty store. -/
theorem c5_two_point_session_witness :
    ([DrawEvent.start "L", .move (some ⟨1, 2⟩), .click none, .move (some ⟨3, 4⟩),
        .click none, .move (some ⟨5, 6⟩), .finish].foldl drawStep
      ⟨[], none, false, none, true⟩).polylines =
      ([] : List Polyline) ++
        [{ newHomePolyline "L" (List.length ([] : List Polyline)) with
            points := [⟨1, 2⟩, ⟨3, 4⟩] }] :=
  (c5_two_point_session ⟨[], none, false, none, true⟩ "L" ⟨1, 2⟩ ⟨3, 4⟩ ⟨5, 6⟩ rfl
    (by simp) (by decide) (by decide)).1

/-- `handleDeletePolyline` (Home.tsx lines 1453-1457): removes the
polyline; if it was the active one, the active reference becomes the
first remaining polyline (or `null`); if the drawing session was
targeting it, drawing stops. -/
def handleDeletePolyline (st : DrawState) (targetId : String) : DrawState :=
  { st with
    polylines := st.polylines.filter (fun p => p.id != targetId)
    activePolylineId :=
      if st.activePolylineId ≠ some targetId then st.activePolylineId
      else (st.polylines.filter (fun p => p.id != targetId)).head?.map Polyline.id
    isDrawingPolyline :=
      if st.activePolylineId = some targetId then false else st.isDrawingPolyline }

/-- The wheel-modal state touched by `deleteLine` (Home.tsx lines
965-998). -/
structure WheelState where
  polylines : List Polyline
  activeId : Option String
  isDrawing : Bool
  previewPoint : Option PolylinePoint

/-- `deleteLine` of the wheel detail modal (Home.tsx lines 1091-1095):
removes the polyline, sets the active reference to `null` when it was the
deleted one (even if other polylines remain), and stops drawing when the
session targeted it. -/
def deleteLine (st : WheelState) (targetId : String) : WheelState :=
  { st with
    polylines := st.polylines.filter (fun p => p.id != targetId)
    activeId := if st.activeId = some targetId then none else st.activeId
    isDrawing := if st.activeId = some targetId then false else st.isDrawing }

/-- C6 counterexample: in the wheel modal, deleting the active polyline
`"a"` while `"b"` remains leaves the active reference `null`, not the
next remaining polyline `"b"`. -/
theorem c6_delete_counterexample :
    (deleteLine
        ⟨[⟨"a", "A", "", .cyan, 1, .solid, []⟩, ⟨"b", "B", "", .cyan, 1, .solid, []⟩],
          some "a", false, none⟩ "a").activeId = none ∧
    (([⟨"a", "A", "", .cyan, 1, .solid, []⟩,
        ⟨"b", "B", "", .cyan, 1, .solid, []⟩] : List Polyline).filter
          (fun p => p.id != "a")).head?.map Polyline.id = some "b" ∧
    ((none : Option String) ≠ some "b") := by
  refine ⟨rfl, rfl, by simp⟩

/-- C6 (amended): Home's delete removes the polyline, falls back to the
first remaining polyline (or `null`) when the active one was deleted and
forces a session targeting it back to idle; the wheel modal's delete
instead always clears the active reference to `null` when the deleted
polyline was active, and likewise stops its drawing session. -/
theorem c6_delete_one (st : DrawState) (stw : WheelState) (targetId : String) :
    ((handleDeletePolyline st targetId).polylines =
        st.polylines.filter (fun p => p.id != targetId) ∧
      (∀ p ∈ (handleDeletePolyline st targetId).polylines, p.id ≠ targetId) ∧
      (st.activePolylineId = some targetId →
        (handleDeletePolyline st targetId).activePolylineId =
            (st.polylines.filter (fun p => p.id != targetId)).head?.map Polyline.id ∧
          (handleDeletePolyline st targetId).isDrawingPolyline = false) ∧
      (st.activePolylineId ≠ some targetId →
        (handleDeletePolyline st targetId).activePolylineId = st.activePolylineId ∧
          (handleDeletePolyline st targetId).isDrawingPolyline =
            st.isDrawingPolyline)) ∧
    ((deleteLine stw targetId).polylines =
        stw.polylines.filter (fun p => p.id != targetId) ∧
      (stw.activeId = some targetId →
        (deleteLine stw targetId).activeId = none ∧
          (deleteLine stw targetId).isDrawing = false) ∧
      (stw.activeId ≠ some targetId →
        (deleteLine stw targetId).activeId = stw.activeId ∧
          (deleteLine stw targetId).isDrawing = stw.isDrawing)) := by
  refine ⟨⟨rfl, ?_, ?_, ?_⟩, rfl, ?_, ?_⟩
  · intro p hp
    have := (List.mem_filter.mp hp).2
    simpa using this
  · intro ha
    constructor
    · simp [handleDeletePolyline, ha]
    · simp [handleDeletePolyline, ha]
  · intro ha
    constructor
    · simp [handleDeletePolyline, ha]
    · simp [handleDeletePolyline, ha]
  · intro ha
    constructor
    · simp [deleteLine, ha]
    · simp [deleteLine, ha]
  · intro ha
    constructor
    · simp [deleteLine, ha]
    · simp [deleteLine, ha]

/-- Witness for C6: deleting the active polyline in both stores at a
concrete state. -/
theorem c6_delete_one_witness :
    (handleDeletePolyline
        ⟨[⟨"a", "A", "", .cyan, 1, .solid, []⟩, ⟨"b", "B", "", .cyan, 1, .solid, []⟩],
          some "a", true, none, true⟩ "a").activePolylineId = some "b" ∧
    (deleteLine
        ⟨[⟨"a", "A", "", .cyan, 1, .solid, []⟩, ⟨"b", "B", "", .cyan, 1, .solid, []⟩],
          some "a", true, none⟩ "a").activeId = none := by
  constructor
  · have h :=
      ((c6_delete_one
        ⟨[⟨"a", "A", "", .cyan, 1, .solid, []⟩, ⟨"b", "B", "", .cyan, 1, .solid, []⟩],
          some "a", true, none, true⟩
        ⟨[⟨"a", "A", "", .cyan, 1, .solid, []⟩, ⟨"b", "B", "", .cyan, 1, .solid, []⟩],
          some "a", true, none⟩ "a").1.2.2.1 rfl).1
    rw [h]
    rfl
  · exact
      ((c6_delete_one
        ⟨[⟨"a", "A", "", .cyan, 1, .solid, []⟩, ⟨"b", "B", "", .cyan, 1, .solid, []⟩],
          some "a", true, none, true⟩
        ⟨[⟨"a", "A", "", .cyan, 1, .solid, []⟩, ⟨"b", "B", "", .cyan, 1, .solid, []⟩],
          some "a", true, none⟩ "a").2.2.1 rfl).1

/-! ## Store initialization from the persisted snapshot (C4) -/

/-- JavaScript `String()` on a number.  Integral values render as in JS;
the non-integral branch is Lean's rational rendering, a placeholder that
no theorem below depends on. -/
def jnumToString : JNum → String
  | .nan => "NaN"
  | .inf => "Infinity"
  | .ninf => "-Infinity"
  | .fin q => if q.den = 1 then toString q.num else toString q

mutual

/-- JavaScript `String()` coercion of a JSON value (used by the polylines
initializer for `String(raw.id)`, Home.tsx line 1353). -/
def jsToString : JValue → String
  | .jnull => "null"
  | .jbool true => "true"
  | .jbool false => "false"
  | .jnum n => jnumToString n
  | .jstr s => s
  | .jobj _ => "[object Object]"
  | .jarr xs => jsArrToString xs

/-- `Array.prototype.toString` (comma join; a `null` element renders
empty). -/
def jsArrToString : List JValue → String
  | [] => ""
  | [v] => jsArrElemToString v
  | v :: rest => jsArrElemToString v ++ "," ++ jsArrToString rest

/-- One element inside an array join. -/
def jsArrElemToString : JValue → String
  | .jnull => ""
  | v => jsToString v

end

/-- `String(x)` where `x` may be `undefined` (a missing property). -/
def jsToStringOpt : Option JValue → String
  | none => "undefined"
  | some v => jsToString v

/-- The shape a polyline element actually has at runtime after the
polylines initializer (Home.tsx lines 1352-1360): `id`, `label` and
`description` are strings, `strokeWidth` is a finite number and
`dashStyle` one of the three keywords, but `color` keeps whatever
non-null JSON value was stored (the `?? 'cyan'` default fires only for
`null`/missing) and the `points` array is type-cast without validating
its elements. -/
structure RTPolyline where
  id : String
  label : String
  description : String
  color : JValue
  strokeWidth : ℚ
  dashStyle : String
  points : List JValue

/-- The element mapper of the polylines initializer (Home.tsx lines
1352-1360), field by field. -/
def normalizeStoredPolyline (raw : JValue) : RTPolyline :=
  { id := jsToStringOpt (getField raw "id")
    label := match getField raw "label" with
             | some (.jstr s) => s
             | _ => "Линия"
    description := match getField raw "description" with
                   | some (.jstr s) => s
                   | _ => ""
    color := match getField raw "color" with
             | none => .jstr "cyan"
             | some .jnull => .jstr "cyan"
             | some v => v
    strokeWidth := match getField raw "strokeWidth" with
                   | some (.jnum (.fin q)) => q
                   | _ => 0.7
    dashStyle := match getField raw "dashStyle" with
                 | some (.jstr "dashed") => "dashed"
                 | some (.jstr "dotted") => "dotted"
                 | _ => "solid"
    points := match getField raw "points" with
              | some (.jarr ps) => ps
              | _ => [] }

/-- `DEFAULT_SEGMENTS` (Home.tsx lines 79-113). -/
def DEFAULT_SEGMENTS : List Segment :=
  [{ id := "tp2", code := "TP-2", title := "Участок TP-2"
     details := "Выделение рядом с надписью TP-2 в правой верхней части чертежа."
     top := 13.744785262817327, left := 86.56305506441433, width := 10, height := 7
     color := .cyan },
   { id := "otk", code := "OTK", title := "Приёмная OTK (ОТК)"
     details := "Зона приёмной ОТК на схеме."
     top := 51.423155845950475, left := 24.31348894489884, width := 4, height := 8
     color := .emerald },
   { id := "seg-mljiz58p", code := "КЦ", title := "Колесный цех", details := ""
     top := 41.13431810215078, left := 75.61856116451851, width := 15, height := 8
     color := .amber }]

/-- The JSON object for a polyline point. -/
def encodePoint (p : PolylinePoint) : JValue :=
  .jobj [("x", .jnum (.fin p.x)), ("y", .jnum (.fin p.y))]

/-- `DEFAULT_HOME_POLYLINES` (Home.tsx lines 116-130), in the runtime
shape of the store (color keyword and points as plain JSON data). -/
def DEFAULT_HOME_POLYLINES_RT : List RTPolyline :=
  [{ id := "wheel-poly-mljuz1y8", label := "Линия 1", description := ""
     color := .jstr "cyan", strokeWidth := 0.3, dashStyle := "dashed"
     points :=
       [encodePoint ⟨15.412186622619629, 88.62004089355469⟩,
        encodePoint ⟨16.129032135009766, 84.09867095947266⟩,
        encodePoint ⟨15.770608901977539, 18.53879737854004⟩] }]

/-- The outcome of reading one localStorage key and running `JSON.parse`:
the key is absent, the parse threw, or it produced a JSON value. -/
inductive Stored where
  | absent
  | malformed
  | parsed (v : JValue)

/-- The segments initializer (Home.tsx lines 1332-1343): any parsed
**array** is installed as-is (`parsed as Segment[]`, a type cast with no
per-element validation), so the store is a list of raw JSON values;
anything else falls back to `DEFAULT_SEGMENTS` (whose runtime objects are
represented here by their JSON encoding). -/
def segmentsInit : Stored → List JValue
  | .parsed (.jarr xs) => xs
  | _ => DEFAULT_SEGMENTS.map encodeSegment

/-- The polylines initializer (Home.tsx lines 1345-1367): a parsed array
is mapped element-wise through the field defaulter, anything else falls
back to `DEFAULT_HOME_POLYLINES`. -/
def polylinesInit : Stored → List RTPolyline
  | .parsed (.jarr xs) => xs.map normalizeStoredPolyline
  | _ => DEFAULT_HOME_POLYLINES_RT

/-- C4 counterexample: a persisted segments snapshot that is an array
containing `null` — an element the repository's own import validator
rejects — is installed verbatim by the initializer: no per-element
re-validation happens and no fallback to the default dataset occurs. -/
theorem c4_init_counterexample :
    segmentsInit (.parsed (.jarr [.jnull])) = [.jnull] ∧
    normalizeImportedSegments (.jarr [.jnull]) = none ∧
    segmentsInit (.parsed (.jarr [.jnull])) ≠ DEFAULT_SEGMENTS.map encodeSegment := by
  refine ⟨rfl, rfl, ?_⟩
  intro h
  have hl := congrArg List.length h
  simp [segmentsInit, DEFAULT_SEGMENTS] at hl

/-- C4 (amended): when the snapshot is absent, malformed JSON or not an
array, both collections fall back to their named default datasets (never
to an empty or error state); a parsed polylines array is re-validated and
defaulted field-by-field, but a parsed segments array is installed as-is,
merely type-cast. -/
theorem c4_init_fallback :
    (segmentsInit .absent = DEFAULT_SEGMENTS.map encodeSegment) ∧
    (segmentsInit .malformed = DEFAULT_SEGMENTS.map encodeSegment) ∧
    (∀ v : JValue, (∀ xs, v ≠ .jarr xs) →
      segmentsInit (.parsed v) = DEFAULT_SEGMENTS.map encodeSegment) ∧
    (∀ xs, segmentsInit (.parsed (.jarr xs)) = xs) ∧
    (polylinesInit .absent = DEFAULT_HOME_POLYLINES_RT) ∧
    (polylinesInit .malformed = DEFAULT_HOME_POLYLINES_RT) ∧
    (∀ v : JValue, (∀ xs, v ≠ .jarr xs) →
      polylinesInit (.parsed v) = DEFAULT_HOME_POLYLINES_RT) ∧
    (∀ xs, polylinesInit (.parsed (.jarr xs)) = xs.map normalizeStoredPolyline) ∧
    (∀ raw : JValue,
      ((normalizeStoredPolyline raw).dashStyle = "solid" ∨
        (normalizeStoredPolyline raw).dashStyle = "dashed" ∨
        (normalizeStoredPolyline raw).dashStyle = "dotted") ∧
      (getField raw "strokeWidth" = none →
        (normalizeStoredPolyline raw).strokeWidth = 0.7) ∧
      (∀ s, getField raw "label" = some (.jstr s) →
        (normalizeStoredPolyline raw).label = s)) := by
  refine ⟨rfl, rfl, ?_, fun xs => rfl, rfl, rfl, ?_, fun xs => rfl, ?_⟩
  · intro v hv
    cases v with
    | jarr xs => exact absurd rfl (hv xs)
    | jnull => rfl
    | jbool b => rfl
    | jnum n => rfl
    | jstr s => rfl
    | jobj fs => rfl
  · intro v hv
    cases v with
    | jarr xs => exact absurd rfl (hv xs)
    | jnull => rfl
    | jbool b => rfl
    | jnum n => rfl
    | jstr s => rfl
    | jobj fs => rfl
  · intro raw
    refine ⟨?_, ?_, ?_⟩
    · have hds : (normalizeStoredPolyline raw).dashStyle =
          match getField raw "dashStyle" with
          | some (.jstr "dashed") => "dashed"
          | some (.jstr "dotted") => "dotted"
          | _ => "solid" := rfl
      rw [hds]
      split
      · right; left; rfl
      · right; right; rfl
      · left; rfl
    · intro h
      have hsw : (normalizeStoredPolyline raw).strokeWidth =
          match getField raw "strokeWidth" with
          | some (.jnum (.fin q)) => q
          | _ => (0.7 : ℚ) := rfl
      rw [hsw, h]
    · intro s h
      have hlb : (normalizeStoredPolyline raw).label =
          match getField raw "label" with
          | some (.jstr t) => t
          | _ => "Линия" := rfl
      rw [hlb, h]

/-- Witness for C4 at concrete inputs: a corrupt non-array snapshot falls
back to the defaults, and a stored polyline object keeps its string
label. -/
theorem c4_init_fallback_witness :
    segmentsInit (.parsed (.jstr "corrupt")) = DEFAULT_SEGMENTS.map encodeSegment ∧
    (normalizeStoredPolyline (.jobj [("label", .jstr "L")])).label = "L" :=
  ⟨c4_init_fallback.2.2.1 (.jstr "corrupt") (fun xs h => by cases h),
    (c4_init_fallback.2.2.2.2.2.2.2.2 (.jobj [("label", .jstr "L")])).2.2 "L" rfl⟩

end Lokoteh
